import Mathlib

/-!
Verification of the EY-Hackathon RFP bidding system.

The frontend pricing store (`PricingContext.tsx`), the RFP store
(`RFPContext.tsx`) and the workflow page (`Workflow.tsx`) are embedded
from the source.  The backend pipeline (requirement parser, matching
engine, pricing engine, step orchestrator) is not present in the
repository sources, only its HTTP caller and the spec are; those parts
are modelled from the spec, as marked on each definition.

JavaScript currency numbers are modelled as exact rationals (`ℚ`).
-/

namespace RFPSystem

/-! ## Pricing store (from `PricingContext.tsx`, a.k.a. part_001) -/

/-- A product pricing row, source interface `ProductRow`. -/
structure ProductRow where
  id : String
  rfpId : String
  oemSku : String
  quantity : ℚ
  unitPrice : ℚ
deriving Repr, DecidableEq

/-- A test pricing row, source interface `TestRow`. -/
structure TestRow where
  id : String
  rfpId : String
  testName : String
  numberOfTests : ℚ
  pricePerTest : ℚ
deriving Repr, DecidableEq

/-- The state held by `PricingProvider`: the two row lists. -/
structure PricingState where
  products : List ProductRow
  tests : List TestRow
deriving Repr, DecidableEq

/-- `getProductsByRFP`: `products.filter(p => p.rfpId === rfpId)`. -/
def getProductsByRFP (s : PricingState) (rfpId : String) : List ProductRow :=
  s.products.filter (fun p => p.rfpId == rfpId)

/-- `getTestsByRFP`: `tests.filter(t => t.rfpId === rfpId)`. -/
def getTestsByRFP (s : PricingState) (rfpId : String) : List TestRow :=
  s.tests.filter (fun t => t.rfpId == rfpId)

/-- `getTotalMaterialCost`: reduce over the rfp's product rows of
`quantity * unitPrice`, starting from 0. -/
def getTotalMaterialCost (s : PricingState) (rfpId : String) : ℚ :=
  (getProductsByRFP s rfpId).foldl (fun sum p => sum + p.quantity * p.unitPrice) 0

/-- `getTotalTestCost`: reduce over the rfp's test rows of
`numberOfTests * pricePerTest`, starting from 0. -/
def getTotalTestCost (s : PricingState) (rfpId : String) : ℚ :=
  (getTestsByRFP s rfpId).foldl (fun sum t => sum + t.numberOfTests * t.pricePerTest) 0

/-- `getGrandTotal`: material total plus test total. -/
def getGrandTotal (s : PricingState) (rfpId : String) : ℚ :=
  getTotalMaterialCost s rfpId + getTotalTestCost s rfpId

/-- The spec's wording for the test cost of a bid: "tests_cost = sum of
price[test] for test in tests_applied" — a plain sum of the per-test
price, one addend per test row, with no multiplication by a test count.
Stated only to be compared against `getTotalTestCost`. -/
def specPlainTestCost (s : PricingState) (rfpId : String) : ℚ :=
  ((getTestsByRFP s rfpId).map (fun t => t.pricePerTest)).sum

/-- Folding an accumulating sum equals summing the mapped list. -/
theorem foldl_add_eq_sum {α : Type} (f : α → ℚ) (l : List α) (init : ℚ) :
    l.foldl (fun sum x => sum + f x) init = init + (l.map f).sum := by
  induction l generalizing init with
  | nil => simp
  | cons a t ih => simp [List.foldl_cons, ih, add_assoc]

/-! ## Backend data model (spec §3; the backend source is absent from the
repository, so these are modelled from the spec) -/

/-- Modelled from the spec: §3 `RequirementItem`
`{id, description, quantity: positive integer, unit}`. -/
structure RequirementItem where
  id : String
  description : String
  quantity : ℕ
  unit : String
deriving Repr, DecidableEq

/-- Modelled from the spec: §3 `ProductRecord`
`{sku, attributes: mapping from attribute-name to attribute-value}`,
the mapping rendered as an association list. -/
structure ProductRecord where
  sku : String
  attributes : List (String × String)
deriving Repr, DecidableEq

/-- Modelled from the spec: §3 `MatchCandidate` `{sku, match_percent}`. -/
structure MatchCandidate where
  sku : String
  match_percent : ℚ
deriving Repr, DecidableEq

/-- Modelled from the spec: §3 `MatchResult`
`{requirement_item_id, top_matches, chosen_sku}`. -/
structure MatchResult where
  requirement_item_id : String
  top_matches : List MatchCandidate
  chosen_sku : Option String
deriving Repr, DecidableEq

/-- Modelled from the spec: §3 `PricedItem`. -/
structure PricedItem where
  requirement_item_id : String
  chosen_sku : Option String
  quantity : ℕ
  unit_price : ℚ
  material_cost : ℚ
  tests_applied : List String
  tests_cost : ℚ
  total_cost : ℚ
deriving Repr, DecidableEq

/-! ## Pricing engine (spec §4.3; missing from the repository sources) -/

/-- Association-list lookup used for the sku→price, test→price and
sku→tests tables. -/
def tableLookup {β : Type} (table : List (String × β)) (key : String) : Option β :=
  (table.find? (fun e => e.fst == key)).map Prod.snd

/-- Modelled from the spec: §4.3 Pricing Engine `price`.  If `chosen_sku`
is absent every cost is 0; otherwise `unit_price` is looked up in
`unit_prices` (a miss is treated as 0), `tests_applied` is
`applicable_tests[chosen_sku]` or empty, `tests_cost` sums the test
prices of the applied tests (a miss is 0), `material_cost` is quantity
times unit price, and `total_cost = material_cost + tests_cost`. -/
def price (m : MatchResult) (item : RequirementItem)
    (unit_prices : List (String × ℚ)) (test_prices : List (String × ℚ))
    (applicable_tests : List (String × List String)) : PricedItem :=
  match m.chosen_sku with
  | none =>
      { requirement_item_id := item.id, chosen_sku := none,
        quantity := item.quantity, unit_price := 0, material_cost := 0,
        tests_applied := [], tests_cost := 0, total_cost := 0 }
  | some sku =>
      let unit_price := (tableLookup unit_prices sku).getD 0
      let material_cost := (item.quantity : ℚ) * unit_price
      let tests_applied := (tableLookup applicable_tests sku).getD []
      let tests_cost := (tests_applied.map (fun t => (tableLookup test_prices t).getD 0)).sum
      { requirement_item_id := item.id, chosen_sku := some sku,
        quantity := item.quantity, unit_price := unit_price,
        material_cost := material_cost, tests_applied := tests_applied,
        tests_cost := tests_cost, total_cost := material_cost + tests_cost }

/-! ## Matching engine (spec §4.2; missing from the repository sources) -/

/-- The ranking order on match candidates: match_percent strictly
descending, ties broken by ascending (lexical) sku. -/
def candLe (a b : MatchCandidate) : Prop :=
  b.match_percent < a.match_percent
    ∨ (a.match_percent = b.match_percent ∧ a.sku ≤ b.sku)

instance : DecidableRel candLe := fun a b => by
  unfold candLe; infer_instance

instance : IsTotal MatchCandidate candLe where
  total a b := by
    rcases lt_trichotomy a.match_percent b.match_percent with h | h | h
    · exact Or.inr (Or.inl h)
    · rcases le_total a.sku b.sku with hs | hs
      · exact Or.inl (Or.inr ⟨h, hs⟩)
      · exact Or.inr (Or.inr ⟨h.symm, hs⟩)
    · exact Or.inl (Or.inl h)

instance : IsTrans MatchCandidate candLe where
  trans a b c hab hbc := by
    rcases hab with h1 | ⟨h1, s1⟩
    · rcases hbc with h2 | ⟨h2, _⟩
      · exact Or.inl (h2.trans h1)
      · exact Or.inl (h2 ▸ h1)
    · rcases hbc with h2 | ⟨h2, s2⟩
      · exact Or.inl (h1 ▸ h2)
      · exact Or.inr ⟨h1.trans h2, s1.trans s2⟩

/-- Modelled from the spec: §4.2 per-product score.  `targets` is the
attribute set extracted from the requirement description;
`match_percent = 100 × (count of attributes where the catalog value
equals the target value) / (count of target attributes)`, and 0 when no
target attribute was extracted. -/
def scoreProduct (targets : List (String × String)) (p : ProductRecord) : ℚ :=
  if targets.isEmpty then 0
  else
    100 * ((targets.filter
      (fun kv => tableLookup p.attributes kv.fst == some kv.snd)).length : ℚ)
      / (targets.length : ℚ)

/-- Modelled from the spec: §4.2 Matching Engine `match` (named
`matchRequirement` because `match` is reserved in Lean).  The extraction
of the target attribute set from the description is the opaque
vocabulary-driven tokenizer; it is passed in as `extractTargets`.  Every
catalog product is scored, candidates are ranked descending by
match_percent with ties broken by ascending sku, the first 3 are kept,
and `chosen_sku` is the first candidate's sku when its score exceeds 0. -/
def matchRequirement (extractTargets : String → List (String × String))
    (item : RequirementItem) (catalog : List ProductRecord) : MatchResult :=
  let targets := extractTargets item.description
  let candidates := catalog.map
    (fun p => MatchCandidate.mk p.sku (scoreProduct targets p))
  let ranked := (candidates.insertionSort candLe).take 3
  { requirement_item_id := item.id,
    top_matches := ranked,
    chosen_sku :=
      match ranked with
      | [] => none
      | c :: _ => if 0 < c.match_percent then some c.sku else none }

/-! ## Requirement parser (spec §4.1; missing from the repository
sources).  The text is processed as its character list. -/

/-- Whitespace characters recognised by the parser. -/
def isWs (c : Char) : Bool :=
  c = ' ' || c = '\t' || c = '\r' || c = '\n'

/-- Split a character list on line breaks. -/
def splitLines : List Char → List (List Char)
  | [] => [[]]
  | c :: rest =>
    match splitLines rest with
    | [] => [[c]]
    | f :: fs => if c = '\n' then [] :: f :: fs else (c :: f) :: fs

/-- Strip leading and trailing whitespace from a character list. -/
def trimChars (l : List Char) : List Char :=
  ((l.dropWhile isWs).reverse.dropWhile isWs).reverse

/-- Modelled from the spec: §4.1 per-fragment parsing.  A leading
quantity and unit token are extracted when present (a number optionally
followed by a unit token), else quantity defaults to 1 and unit to "";
a fragment whose description is empty is dropped. -/
def parseFragment (frag : List Char) : Option RequirementItem :=
  let t := trimChars frag
  if t.isEmpty then none
  else
    let digits := t.takeWhile Char.isDigit
    if digits.isEmpty then
      some { id := String.mk t, description := String.mk t, quantity := 1, unit := "" }
    else
      let rest := trimChars (t.drop digits.length)
      let unitTok := rest.takeWhile (fun c => !(isWs c))
      let desc := trimChars (rest.drop unitTok.length)
      if desc.isEmpty then none
      else
        some { id := String.mk t, description := String.mk desc,
               quantity := (String.mk digits).toNat!, unit := String.mk unitTok }

/-- Modelled from the spec: §4.1 Requirement Parser.  The input is split
on line breaks and each fragment is parsed; fragments with empty
descriptions are dropped. -/
def parseRequirements (input : String) : List RequirementItem :=
  (splitLines input.data).filterMap parseFragment

/-- `trimChars` of an all-whitespace character list is empty. -/
theorem trimChars_eq_nil_of_ws {l : List Char} (h : ∀ c ∈ l, isWs c) :
    trimChars l = [] := by
  have h1 : l.dropWhile isWs = [] := List.dropWhile_eq_nil_iff.mpr h
  simp [trimChars, h1]

/-- Every character of every fragment of `splitLines l` is a character
of `l`. -/
theorem splitLines_chars {l : List Char} {f : List Char} (hf : f ∈ splitLines l)
    {c : Char} (hc : c ∈ f) : c ∈ l := by
  induction l generalizing f with
  | nil =>
      simp only [splitLines, List.mem_singleton] at hf
      subst hf; cases hc
  | cons a t ih =>
      cases hrec : splitLines t with
      | nil =>
          simp only [splitLines, hrec, List.mem_singleton] at hf
          subst hf
          simp only [List.mem_singleton] at hc
          simp [hc]
      | cons g gs =>
          simp only [splitLines, hrec] at hf
          by_cases ha : a = '\n'
          · rw [if_pos ha] at hf
            rcases List.mem_cons.mp hf with h | h
            · subst h; cases hc
            · exact List.mem_cons_of_mem a (ih (hrec ▸ h) hc)
          · rw [if_neg ha] at hf
            rcases List.mem_cons.mp hf with h | h
            · subst h
              rcases List.mem_cons.mp hc with h | h
              · simp [h]
              · exact List.mem_cons_of_mem a (ih (hrec ▸ List.mem_cons_self g gs) h)
            · exact List.mem_cons_of_mem a (ih (hrec ▸ List.mem_cons.mpr (Or.inr h)) hc)

/-- A whitespace-only fragment parses to nothing. -/
theorem parseFragment_ws {f : List Char} (h : ∀ c ∈ f, isWs c) :
    parseFragment f = none := by
  simp [parseFragment, trimChars_eq_nil_of_ws h]

/-- The parser returns the empty sequence on whitespace-only input. -/
theorem parseRequirements_ws {input : String} (h : ∀ c ∈ input.data, isWs c) :
    parseRequirements input = [] := by
  unfold parseRequirements
  rw [List.filterMap_eq_nil_iff]
  intro f hf
  exact parseFragment_ws (fun c hc => h c (splitLines_chars hf hc))

/-! ## Final bid and consolidation (spec §3, §4.4; missing from the
repository sources) -/

/-- Modelled from the spec: one entry of `technical_items`, a
`MatchResult` joined with its `RequirementItem` (the frontend reads
`rfp_item`, `top_matches` and `chosen_sku` off each entry). -/
structure TechnicalItem where
  rfp_item : RequirementItem
  top_matches : List MatchCandidate
  chosen_sku : Option String
deriving Repr, DecidableEq

/-- Modelled from the spec: §3 `FinalBid`. -/
structure FinalBid where
  rfp_id : String
  rfp_title : String
  rfp_due_date : String
  scope_of_supply : String
  technical_items : List TechnicalItem
  pricing : List PricedItem
  total_bid_value : ℚ
  narrative_summary : String
deriving Repr, DecidableEq

/-- Modelled from the spec: `total_bid_value` is the plain sum of
`PricedItem.total_cost`. -/
def totalBidValue (items : List PricedItem) : ℚ :=
  (items.map (fun i => i.total_cost)).sum

/-- RFP header metadata carried into the final bid. -/
structure RFPMeta where
  rfp_id : String
  rfp_title : String
  rfp_due_date : String
deriving Repr, DecidableEq

/-- Modelled from the spec: the parse → match → price → consolidate
pipeline over one scope-of-supply text, assembling the `FinalBid`. -/
def runPipeline (extractTargets : String → List (String × String))
    (catalog : List ProductRecord) (unit_prices test_prices : List (String × ℚ))
    (applicable_tests : List (String × List String)) (meta : RFPMeta)
    (scopeText : String) (narrative : String) : FinalBid :=
  let items := parseRequirements scopeText
  let priced := items.map (fun it =>
    price (matchRequirement extractTargets it catalog) it
      unit_prices test_prices applicable_tests)
  { rfp_id := meta.rfp_id, rfp_title := meta.rfp_title,
    rfp_due_date := meta.rfp_due_date, scope_of_supply := scopeText,
    technical_items := items.map (fun it =>
      let r := matchRequirement extractTargets it catalog
      ⟨it, r.top_matches, r.chosen_sku⟩),
    pricing := priced,
    total_bid_value := totalBidValue priced,
    narrative_summary := narrative }

/-! ## Step orchestrator (spec §4.4; missing from the repository
sources).  The workflow page `Workflow.tsx` is the HTTP caller of this
state machine. -/

/-- The step status enum, from the `WorkflowStep.status` union type in
`Workflow.tsx` (identical to spec §3 `StepRecord.status`). -/
inductive StepStatus where
  | pending
  | running
  | completed
  | error
deriving Repr, DecidableEq

/-- Modelled from the spec: §3 `StepRecord` (serialized as
`WorkflowStep` in `Workflow.tsx`). -/
structure StepRecord where
  step_name : String
  agent_name : String
  status : StepStatus
  output : Option String
  summary : Option String
  error : Option String
deriving Repr, DecidableEq

/-- Modelled from the spec: §3 `WorkflowInstance`. -/
structure WorkflowInstance where
  workflow_id : String
  steps : List StepRecord
  current_step : ℕ
  final_response : Option FinalBid
deriving Repr, DecidableEq

/-- `total_steps`, as serialized by the orchestrator API. -/
def WorkflowInstance.total_steps (w : WorkflowInstance) : ℕ :=
  w.steps.length

/-- Orchestrator usage errors surfaced to the caller (spec §7). -/
inductive OrchErrorKind where
  | NotFoundError
  | AlreadyCompletedError
deriving Repr, DecidableEq

/-- The outcome of invoking the component behind the current step:
either its output, summary and (for the final step) the assembled bid,
or an error text. -/
inductive StepOutcome where
  | success (output summary : String) (bid : FinalBid)
  | failure (err : String)
deriving Repr, DecidableEq

/-- The orchestrator's workflow store keyed by workflow_id. -/
def OrchStore := List (String × WorkflowInstance)

/-- Replace the workflow stored under `wid`. -/
def storePut (store : OrchStore) (wid : String) (w : WorkflowInstance) : OrchStore :=
  List.map (fun e => if e.fst == wid then (wid, w) else e) store

/-- Update the step record at index `i` (no-op when out of range). -/
def modifyStep (steps : List StepRecord) (i : ℕ) (f : StepRecord → StepRecord) :
    List StepRecord :=
  match steps[i]? with
  | some s => steps.set i (f s)
  | none => steps

/-- Modelled from the spec: §4.4 `start()` — a fresh workflow with
pending placeholder steps, `current_step = 0` and no final response. -/
def startWorkflow (wid : String) (stepDefs : List (String × String)) : WorkflowInstance :=
  { workflow_id := wid,
    steps := stepDefs.map (fun d =>
      { step_name := d.fst, agent_name := d.snd, status := StepStatus.pending,
        output := none, summary := none, error := none }),
    current_step := 0,
    final_response := none }

/-- Modelled from the spec: §4.4 `executeNext(workflow_id)`.  Unknown id
⇒ `NotFoundError`; `final_response` already set ⇒
`AlreadyCompletedError`; otherwise the step at `current_step` runs: on
failure its error text is recorded with status `error` and
`current_step` is not advanced; on success it is marked `completed`,
`current_step` advances by one, and on the last step the assembled
`FinalBid` is stored as `final_response`.  Returns the updated store and
workflow. -/
def executeNext (store : OrchStore) (wid : String) (outcome : StepOutcome) :
    Except OrchErrorKind (OrchStore × WorkflowInstance) :=
  match tableLookup store wid with
  | none => Except.error OrchErrorKind.NotFoundError
  | some w =>
    if w.final_response.isSome then Except.error OrchErrorKind.AlreadyCompletedError
    else
      match outcome with
      | StepOutcome.failure e =>
          let w2 := { w with
            steps := modifyStep w.steps w.current_step
              (fun s => { s with status := StepStatus.error, error := some e }) }
          Except.ok (storePut store wid w2, w2)
      | StepOutcome.success out summ bid =>
          let w2 := { w with
            steps := modifyStep w.steps w.current_step
              (fun s =>
                { s with
                  status := StepStatus.completed
                  output := some out
                  summary := some summ
                  error := none }),
            current_step := w.current_step + 1,
            final_response :=
              if w.current_step = w.steps.length - 1 then some bid
              else w.final_response }
          Except.ok (storePut store wid w2, w2)

/-! ## Serialized workflow shape (from `Workflow.tsx`, a.k.a. part_004,
lines 27–42) -/

/-- The field names of the serialized workflow exchanged over the
orchestrator API, from the `WorkflowProgress` interface in
`Workflow.tsx`. -/
def workflowProgressFields : List String :=
  ["workflow_id", "current_step", "total_steps", "steps", "final_response"]

/-- The field names of §3 `WorkflowInstance` as listed by the spec:
workflow_id, steps, current_step, final_response. -/
def specWorkflowInstanceFields : List String :=
  ["workflow_id", "steps", "current_step", "final_response"]

/-- The four status literals of the `WorkflowStep.status` union type in
`Workflow.tsx`. -/
def workflowStepStatusValues : List String :=
  ["pending", "running", "completed", "error"]

/-- Serialization of a step status to its string literal. -/
def StepStatus.serialize : StepStatus → String
  | StepStatus.pending => "pending"
  | StepStatus.running => "running"
  | StepStatus.completed => "completed"
  | StepStatus.error => "error"

/-! ## RFP store (from `RFPContext.tsx`) -/

/-- Source interface `LineItem`. -/
structure LineItem where
  id : String
  description : String
  quantity : Int
  unit : String
deriving Repr, DecidableEq

/-- Source interface `Requirement`. -/
structure Requirement where
  id : String
  text : String
deriving Repr, DecidableEq

/-- The RFP status union type `'Open' | 'In Progress' | 'Submitted'`. -/
inductive RFPStatus where
  | Open
  | InProgress
  | Submitted
deriving Repr, DecidableEq

/-- Source interface `RFP`. -/
structure RFP where
  id : String
  rfpId : String
  title : String
  client : String
  dueDate : String
  status : RFPStatus
  lineItems : List LineItem
  requirements : List Requirement
  readyForTechnical : Bool
  readyForPricing : Bool
deriving Repr, DecidableEq

/-- A `Partial<RFP>` update object: absent fields are left unchanged. -/
structure RFPUpdates where
  id : Option String := none
  rfpId : Option String := none
  title : Option String := none
  client : Option String := none
  dueDate : Option String := none
  status : Option RFPStatus := none
  lineItems : Option (List LineItem) := none
  requirements : Option (List Requirement) := none
  readyForTechnical : Option Bool := none
  readyForPricing : Option Bool := none
deriving Repr, DecidableEq

/-- The spread `{ ...rfp, ...updates }`: present update fields win. -/
def applyUpdates (u : RFPUpdates) (r : RFP) : RFP :=
  { id := u.id.getD r.id
    rfpId := u.rfpId.getD r.rfpId
    title := u.title.getD r.title
    client := u.client.getD r.client
    dueDate := u.dueDate.getD r.dueDate
    status := u.status.getD r.status
    lineItems := u.lineItems.getD r.lineItems
    requirements := u.requirements.getD r.requirements
    readyForTechnical := u.readyForTechnical.getD r.readyForTechnical
    readyForPricing := u.readyForPricing.getD r.readyForPricing }

/-- `updateRFP`: map over the store, merging `updates` into the RFP
whose id matches. -/
def updateRFP (rfps : List RFP) (id : String) (u : RFPUpdates) : List RFP :=
  rfps.map (fun rfp => if rfp.id == id then applyUpdates u rfp else rfp)

/-- `getRFPById`: `rfps.find(rfp => rfp.id === id)`. -/
def getRFPById (rfps : List RFP) (id : String) : Option RFP :=
  rfps.find? (fun rfp => rfp.id == id)

/-- `addLineItem`: map over the store, appending the new line item (with
its generated id) to the matching RFP's `lineItems`. -/
def addLineItem (rfps : List RFP) (rfpId : String) (li : LineItem) : List RFP :=
  rfps.map (fun rfp =>
    if rfp.id == rfpId then { rfp with lineItems := rfp.lineItems ++ [li] } else rfp)

/-- `addRequirement`: map over the store, appending the new requirement
to the matching RFP's `requirements`. -/
def addRequirement (rfps : List RFP) (rfpId : String) (req : Requirement) : List RFP :=
  rfps.map (fun rfp =>
    if rfp.id == rfpId then { rfp with requirements := rfp.requirements ++ [req] } else rfp)

/-- The `RFPDetail` page's dispatch on a missing RFP (part_005 lines
31–46): an absent lookup renders the not-found view. -/
inductive DetailView where
  | notFound
  | detail (r : RFP)
deriving Repr, DecidableEq

/-- How `RFPDetail` chooses what to render for a given id. -/
def renderRFPDetail (rfps : List RFP) (id : String) : DetailView :=
  match getRFPById rfps id with
  | none => DetailView.notFound
  | some r => DetailView.detail r

/-! ## Claim theorems -/

/-- C1: every `PricedItem` produced by the pricing engine satisfies
`total_cost = material_cost + tests_cost` and
`material_cost = quantity × unit_price`, and over the pricing store the
aggregated material cost is the sum over the rfp's product rows of
quantity times unit price while the grand total is exactly the material
cost plus the tests cost. -/
theorem pricing_cost_identities (m : MatchResult) (item : RequirementItem)
    (up tp : List (String × ℚ)) (at_ : List (String × List String))
    (s : PricingState) (rfpId : String) :
    (price m item up tp at_).total_cost
      = (price m item up tp at_).material_cost + (price m item up tp at_).tests_cost
    ∧ (price m item up tp at_).material_cost
      = ((price m item up tp at_).quantity : ℚ) * (price m item up tp at_).unit_price
    ∧ getGrandTotal s rfpId = getTotalMaterialCost s rfpId + getTotalTestCost s rfpId
    ∧ getTotalMaterialCost s rfpId
      = ((getProductsByRFP s rfpId).map (fun p => p.quantity * p.unitPrice)).sum := by
  refine ⟨?_, ?_, rfl, ?_⟩
  · cases h : m.chosen_sku <;> simp [price, h]
  · cases h : m.chosen_sku <;> simp [price, h]
  · simp [getTotalMaterialCost, foldl_add_eq_sum]

/-- A pricing store holding a single test row counted twice, used to
compare `getTotalTestCost` with the spec's plain per-test sum. -/
def twoCountState : PricingState :=
  { products := [],
    tests := [{ id := "t1", rfpId := "RFP-1", testName := "Type Test",
                numberOfTests := 2, pricePerTest := 5 }] }

/-- C2 counterexample: `getTotalTestCost` multiplies each test row's
price by `numberOfTests`, so on a row with `numberOfTests = 2` and
`pricePerTest = 5` it returns 10, not the plain per-test sum 5. -/
theorem testCost_not_plain_sum :
    getTotalTestCost twoCountState "RFP-1" ≠ specPlainTestCost twoCountState "RFP-1" := by
  simp only [twoCountState, getTotalTestCost, specPlainTestCost, getTestsByRFP,
    List.filter, List.foldl, List.map, List.sum]
  norm_num

/-- C2 (amended): for every rfpId the tests cost equals the sum over the
rfp's test rows of `numberOfTests × pricePerTest` (each test price is
multiplied by the row's test count). -/
theorem testCost_eq_weighted_sum (s : PricingState) (rfpId : String) :
    getTotalTestCost s rfpId
      = ((getTestsByRFP s rfpId).map (fun t => t.numberOfTests * t.pricePerTest)).sum := by
  simp [getTotalTestCost, foldl_add_eq_sum]

/-- C3: for every target extractor, requirement item and catalog, the
match result's `top_matches` has length at most 3, is sorted by
`candLe` (match_percent descending, ties by ascending sku), and in
particular any two entries in ranking order with equal match_percent
have lexically ascending skus. -/
theorem topMatches_ranking (extractTargets : String → List (String × String))
    (item : RequirementItem) (catalog : List ProductRecord) :
    (matchRequirement extractTargets item catalog).top_matches.length ≤ 3
    ∧ List.Sorted candLe (matchRequirement extractTargets item catalog).top_matches
    ∧ List.Pairwise (fun a b => a.match_percent = b.match_percent → a.sku ≤ b.sku)
        (matchRequirement extractTargets item catalog).top_matches := by
  have htop : (matchRequirement extractTargets item catalog).top_matches
      = ((catalog.map (fun p =>
          MatchCandidate.mk p.sku (scoreProduct (extractTargets item.description) p))).insertionSort
            candLe).take 3 := rfl
  have hsorted : List.Sorted candLe
      ((catalog.map (fun p =>
        MatchCandidate.mk p.sku (scoreProduct (extractTargets item.description) p))).insertionSort
          candLe) :=
    List.sorted_insertionSort candLe _
  have htake : List.Sorted candLe
      (matchRequirement extractTargets item catalog).top_matches := by
    rw [htop]
    exact List.Pairwise.sublist (List.take_sublist 3 _) hsorted
  refine ⟨?_, htake, ?_⟩
  · rw [htop]
    exact List.length_take_le 3 _
  · refine htake.imp ?_
    intro a b hab heq
    rcases hab with h | ⟨_, hle⟩
    · exact absurd (heq ▸ h) (lt_irrefl _)
    · exact hle

/-- After `storePut`, looking up the same id finds the new workflow
(provided the id was present). -/
theorem tableLookup_storePut {store : OrchStore} {wid : String}
    {w w2 : WorkflowInstance} (h : tableLookup store wid = some w) :
    tableLookup (storePut store wid w2) wid = some w2 := by
  induction store with
  | nil => simp [tableLookup] at h
  | cons a t ih =>
      by_cases ha : a.fst == wid
      · simp [tableLookup, storePut, List.find?, ha]
      · simp only [tableLookup, List.find?, ha] at h
        simp only [tableLookup, storePut, List.map, List.find?, ha, if_neg]
        rw [if_neg (by simp [ha])]
        simp only [List.find?, ha]
        exact ih h

/-- Updating the step at an in-range index places the updated record at
that index. -/
theorem modifyStep_getElem {steps : List StepRecord} {i : ℕ}
    (h : i < steps.length) (f : StepRecord → StepRecord) :
    (modifyStep steps i f)[i]? = (steps[i]?).map f := by
  rw [modifyStep, List.getElem?_eq_getElem h]
  simp [List.getElem?_set_eq_of_lt _ (by simpa using h), List.getElem?_eq_getElem h]

/-- C4: if the workflow is found with no final response yet and
`current_step` is the last step, a successful `executeNext` stores a
non-absent `final_response`; once `final_response` is set every
`executeNext` fails with `AlreadyCompletedError`; an unknown
workflow_id fails with `NotFoundError`. -/
theorem orchestrator_completion (store : OrchStore) (wid : String)
    (w : WorkflowInstance) (out summ : String) (bid : FinalBid)
    (outcome : StepOutcome) :
    (tableLookup store wid = some w → w.final_response = none →
      0 < w.steps.length → w.current_step = w.steps.length - 1 →
      ∃ p, executeNext store wid (StepOutcome.success out summ bid) = Except.ok p
        ∧ p.2.final_response = some bid)
    ∧ (tableLookup store wid = some w → w.final_response.isSome →
        executeNext store wid outcome = Except.error OrchErrorKind.AlreadyCompletedError)
    ∧ (tableLookup store wid = none →
        executeNext store wid outcome = Except.error OrchErrorKind.NotFoundError)
    := by
  refine ⟨?_, ?_, ?_⟩
  · intro hfind hnone _ hlast
    simp only [executeNext, hfind, hnone, Option.isSome_none, Bool.false_eq_true,
      if_false]
    exact ⟨_, rfl, by simp [hlast]⟩
  · intro hfind hsome
    rw [executeNext, hfind]
    simp [hsome]
  · intro hfind
    rw [executeNext, hfind]

/-- C5: on a found, uncompleted workflow, a failing step leaves
`current_step` unchanged, marks the step's status `error`, and stores
the updated workflow under the same id so the next call re-attempts the
same step; a succeeding step is marked `completed` and `current_step`
advances by exactly one. -/
theorem orchestrator_retry (store : OrchStore) (wid : String)
    (w : WorkflowInstance) (e out summ : String) (bid : FinalBid) :
    (tableLookup store wid = some w → w.final_response = none →
      ∃ p, executeNext store wid (StepOutcome.failure e) = Except.ok p
        ∧ p.2.current_step = w.current_step
        ∧ (w.current_step < w.steps.length →
            (p.2.steps[w.current_step]?).map (fun s => s.status)
              = some StepStatus.error)
        ∧ tableLookup p.1 wid = some p.2)
    ∧ (tableLookup store wid = some w → w.final_response = none →
      ∃ p, executeNext store wid (StepOutcome.success out summ bid) = Except.ok p
        ∧ p.2.current_step = w.current_step + 1
        ∧ (w.current_step < w.steps.length →
            (p.2.steps[w.current_step]?).map (fun s => s.status)
              = some StepStatus.completed))
    := by
  constructor
  · intro hfind hnone
    simp only [executeNext, hfind, hnone, Option.isSome_none, Bool.false_eq_true,
      if_false]
    refine ⟨_, rfl, rfl, ?_, tableLookup_storePut hfind⟩
    intro hlt
    simp [modifyStep_getElem hlt, List.getElem?_eq_getElem hlt]
  · intro hfind hnone
    simp only [executeNext, hfind, hnone, Option.isSome_none, Bool.false_eq_true,
      if_false]
    refine ⟨_, rfl, rfl, ?_⟩
    intro hlt
    simp [modifyStep_getElem hlt, List.getElem?_eq_getElem hlt]

/-- C7: whitespace-only requirement text parses to the empty sequence
(not an error); the resulting `FinalBid` has empty `technical_items`
and `pricing` and a `total_bid_value` of 0; and an rfpId with no
product rows and no test rows has material, test and grand totals all
equal to 0. -/
theorem empty_input_graceful (extractTargets : String → List (String × String))
    (catalog : List ProductRecord) (up tp : List (String × ℚ))
    (at_ : List (String × List String)) (meta : RFPMeta) (narr : String)
    (input : String) (s : PricingState) (rfpId : String)
    (hws : ∀ c ∈ input.data, isWs c)
    (hp : ∀ p ∈ s.products, p.rfpId ≠ rfpId)
    (ht : ∀ t ∈ s.tests, t.rfpId ≠ rfpId) :
    parseRequirements input = []
    ∧ (runPipeline extractTargets catalog up tp at_ meta input narr).technical_items = []
    ∧ (runPipeline extractTargets catalog up tp at_ meta input narr).pricing = []
    ∧ (runPipeline extractTargets catalog up tp at_ meta input narr).total_bid_value = 0
    ∧ getTotalMaterialCost s rfpId = 0
    ∧ getTotalTestCost s rfpId = 0
    ∧ getGrandTotal s rfpId = 0 := by
  have hparse : parseRequirements input = [] := parseRequirements_ws hws
  have hprod : getProductsByRFP s rfpId = [] := by
    rw [getProductsByRFP, List.filter_eq_nil_iff]
    intro p hmem
    simpa using hp p hmem
  have htest : getTestsByRFP s rfpId = [] := by
    rw [getTestsByRFP, List.filter_eq_nil_iff]
    intro t hmem
    simpa using ht t hmem
  refine ⟨hparse, ?_, ?_, ?_, ?_, ?_, ?_⟩
  · simp [runPipeline, hparse]
  · simp [runPipeline, hparse]
  · simp [runPipeline, hparse, totalBidValue]
  · simp [getTotalMaterialCost, hprod]
  · simp [getTotalTestCost, htest]
  · simp [getGrandTotal, getTotalMaterialCost, getTotalTestCost, hprod, htest]

/-- C8 counterexample: the serialized workflow of `Workflow.tsx` has a
`total_steps` field that is not among the §3 `WorkflowInstance`
fields, so the serialization does not mirror §3 with no additional
fields. -/
theorem serialized_fields_extra :
    "total_steps" ∈ workflowProgressFields
    ∧ "total_steps" ∉ specWorkflowInstanceFields := by
  constructor
  · simp [workflowProgressFields]
  · simp [specWorkflowInstanceFields]

/-- C8 (amended): the serialized workflow contains exactly the §3
fields plus `total_steps`, and every step status serializes to one of
the four enum values pending, running, completed, error. -/
theorem serialized_fields_shape (f : String) (st : StepStatus) :
    (f ∈ workflowProgressFields ↔ f ∈ "total_steps" :: specWorkflowInstanceFields)
    ∧ StepStatus.serialize st ∈ workflowStepStatusValues := by
  constructor
  · simp only [workflowProgressFields, specWorkflowInstanceFields, List.mem_cons,
      List.mem_singleton, List.not_mem_nil, or_false]
    tauto
  · cases st <;> simp [StepStatus.serialize, workflowStepStatusValues]

/-- C9: `updateRFP`, `addLineItem` and `addRequirement` preserve the
number and order of the stored RFPs, and any RFP whose id differs from
the targeted id is left completely unchanged at its position. -/
theorem rfp_store_frame (rfps : List RFP) (uid : String) (u : RFPUpdates)
    (li : LineItem) (req : Requirement) (i : ℕ) (r : RFP)
    (hr : rfps[i]? = some r) (hne : r.id ≠ uid) :
    (updateRFP rfps uid u).length = rfps.length
    ∧ (updateRFP rfps uid u)[i]? = some r
    ∧ (addLineItem rfps uid li).length = rfps.length
    ∧ (addLineItem rfps uid li)[i]? = some r
    ∧ (addRequirement rfps uid req).length = rfps.length
    ∧ (addRequirement rfps uid req)[i]? = some r := by
  have hid : (r.id == uid) = false := by
    simp [hne]
  refine ⟨?_, ?_, ?_, ?_, ?_, ?_⟩
  · simp [updateRFP]
  · simp [updateRFP, List.getElem?_map, hr, hne]
  · simp [addLineItem]
  · simp [addLineItem, List.getElem?_map, hr, hne]
  · simp [addRequirement]
  · simp [addRequirement, List.getElem?_map, hr, hne]

/-- C10: `getRFPById` returns the first stored RFP whose id matches,
returns `none` exactly when no stored RFP has the id, and the detail
page renders the not-found view exactly in the `none` case. -/
theorem getRFPById_spec (rfps : List RFP) (id : String) :
    (∀ r, getRFPById rfps id = some r →
      r.id = id ∧ ∃ pre post, rfps = pre ++ r :: post ∧ ∀ x ∈ pre, x.id ≠ id)
    ∧ (getRFPById rfps id = none ↔ ∀ x ∈ rfps, x.id ≠ id)
    ∧ (renderRFPDetail rfps id = DetailView.notFound ↔ getRFPById rfps id = none) := by
  refine ⟨?_, ?_, ?_⟩
  · intro r hfound
    constructor
    · have := List.find?_some hfound
      simpa using this
    · induction rfps with
      | nil => simp [getRFPById] at hfound
      | cons a t ih =>
          rw [getRFPById] at hfound
          by_cases ha : (a.id == id) = true
          · simp only [List.find?_cons, ha, Option.some.injEq] at hfound
            exact ⟨[], t, by simp [hfound.symm], by simp⟩
          · have ha2 : (a.id == id) = false := by
              simpa using ha
            simp only [List.find?_cons, ha2] at hfound
            obtain ⟨pre, post, heq, hpre⟩ := ih hfound
            refine ⟨a :: pre, post, by simp [heq], ?_⟩
            intro x hx
            rcases List.mem_cons.mp hx with h | h
            · subst h
              simpa using ha
            · exact hpre x h
  · rw [getRFPById, List.find?_eq_none]
    constructor
    · intro h x hx
      simpa using h x hx
    · intro h x hx
      simp [h x hx]
  · rw [renderRFPDetail]
    cases h : getRFPById rfps id <;> simp [h]

/-! ## Concrete instances used by the witnesses -/

def sampleBid : FinalBid :=
  { rfp_id := "RFP-1", rfp_title := "T", rfp_due_date := "2024-01-01",
    scope_of_supply := "s", technical_items := [], pricing := [],
    total_bid_value := 0, narrative_summary := "n" }

def sampleStep : StepRecord :=
  { step_name := "Parsing", agent_name := "Main Agent",
    status := StepStatus.pending, output := none, summary := none, error := none }

def sampleW : WorkflowInstance :=
  { workflow_id := "w1", steps := [sampleStep], current_step := 0,
    final_response := none }

def sampleDoneW : WorkflowInstance :=
  { sampleW with final_response := some sampleBid }

def sampleStore : OrchStore := [("w1", sampleW)]

def sampleDoneStore : OrchStore := [("w1", sampleDoneW)]

def permProductA : ProductRow :=
  { id := "p1", rfpId := "A", oemSku := "S1", quantity := 1, unitPrice := 2 }

def permProductB : ProductRow :=
  { id := "p2", rfpId := "A", oemSku := "S2", quantity := 3, unitPrice := 4 }

def permTestA : TestRow :=
  { id := "t1", rfpId := "A", testName := "T1", numberOfTests := 1, pricePerTest := 3 }

def permTestB : TestRow :=
  { id := "t2", rfpId := "A", testName := "T2", numberOfTests := 2, pricePerTest := 5 }

def permState1 : PricingState :=
  { products := [permProductA, permProductB], tests := [permTestA, permTestB] }

def sampleMeta : RFPMeta := { rfp_id := "R1", rfp_title := "T", rfp_due_date := "D" }

def sampleRFP : RFP :=
  { id := "1", rfpId := "RFP-001", title := "T", client := "C", dueDate := "D",
    status := RFPStatus.Open, lineItems := [], requirements := [],
    readyForTechnical := false, readyForPricing := false }

def sampleLI : LineItem :=
  { id := "li1", description := "cable", quantity := 2, unit := "m" }

def sampleReq : Requirement := { id := "r1", text := "IEC type test" }

def emptyUpdates : RFPUpdates := {}

/-! ## Witnesses -/

/-- C4 witness: on a one-step workflow at its last step, a successful
execution stores the final bid; a completed workflow rejects execution;
an unknown id is not found. -/
theorem orchestrator_completion_witness :
    (∃ p, executeNext sampleStore "w1" (StepOutcome.success "o" "s" sampleBid)
        = Except.ok p ∧ p.2.final_response = some sampleBid)
    ∧ executeNext sampleDoneStore "w1" (StepOutcome.failure "x")
        = Except.error OrchErrorKind.AlreadyCompletedError
    ∧ executeNext [] "nope" (StepOutcome.failure "x")
        = Except.error OrchErrorKind.NotFoundError :=
  ⟨(orchestrator_completion sampleStore "w1" sampleW "o" "s" sampleBid
      (StepOutcome.failure "x")).1 rfl rfl (by decide) rfl,
   (orchestrator_completion sampleDoneStore "w1" sampleDoneW "o" "s" sampleBid
      (StepOutcome.failure "x")).2.1 rfl rfl,
   (orchestrator_completion [] "nope" sampleW "o" "s" sampleBid
      (StepOutcome.failure "x")).2.2 rfl⟩

/-- C5 witness: a failing step on the sample workflow keeps
`current_step` at 0 with the step marked `error`, stored under the same
id; a succeeding step advances to 1 with the step marked `completed`. -/
theorem orchestrator_retry_witness :
    (∃ p, executeNext sampleStore "w1" (StepOutcome.failure "boom") = Except.ok p
      ∧ p.2.current_step = sampleW.current_step
      ∧ (sampleW.current_step < sampleW.steps.length →
          (p.2.steps[sampleW.current_step]?).map (fun s => s.status)
            = some StepStatus.error)
      ∧ tableLookup p.1 "w1" = some p.2)
    ∧ (∃ p, executeNext sampleStore "w1" (StepOutcome.success "o" "s" sampleBid)
        = Except.ok p
      ∧ p.2.current_step = sampleW.current_step + 1
      ∧ (sampleW.current_step < sampleW.steps.length →
          (p.2.steps[sampleW.current_step]?).map (fun s => s.status)
            = some StepStatus.completed)) :=
  ⟨(orchestrator_retry sampleStore "w1" sampleW "boom" "o" "s" sampleBid).1 rfl rfl,
   (orchestrator_retry sampleStore "w1" sampleW "boom" "o" "s" sampleBid).2 rfl rfl⟩

/-- C7 witness: a whitespace-only scope text yields an empty parse and
an empty zero-valued bid, and an rfpId with no rows has all totals 0. -/
theorem empty_input_witness :
    ((∀ c ∈ ("  \n\t ".data), isWs c)
      ∧ (∀ p ∈ permState1.products, p.rfpId ≠ "B")
      ∧ (∀ t ∈ permState1.tests, t.rfpId ≠ "B"))
    ∧ (parseRequirements "  \n\t " = []
      ∧ (runPipeline (fun _ => []) [] [] [] [] sampleMeta "  \n\t " "n").technical_items = []
      ∧ (runPipeline (fun _ => []) [] [] [] [] sampleMeta "  \n\t " "n").pricing = []
      ∧ (runPipeline (fun _ => []) [] [] [] [] sampleMeta "  \n\t " "n").total_bid_value = 0
      ∧ getTotalMaterialCost permState1 "B" = 0
      ∧ getTotalTestCost permState1 "B" = 0
      ∧ getGrandTotal permState1 "B" = 0) :=
  ⟨⟨by decide, by decide, by decide⟩,
   empty_input_graceful (fun _ => []) [] [] [] [] sampleMeta "n" "  \n\t "
     permState1 "B" (by decide) (by decide) (by decide)⟩

/-- C9 witness: updating, adding a line item, or adding a requirement
under id "2" leaves the stored RFP with id "1" untouched. -/
theorem rfp_store_frame_witness :
    ([sampleRFP][0]? = some sampleRFP ∧ sampleRFP.id ≠ "2")
    ∧ ((updateRFP [sampleRFP] "2" emptyUpdates).length = [sampleRFP].length
      ∧ (updateRFP [sampleRFP] "2" emptyUpdates)[0]? = some sampleRFP
      ∧ (addLineItem [sampleRFP] "2" sampleLI).length = [sampleRFP].length
      ∧ (addLineItem [sampleRFP] "2" sampleLI)[0]? = some sampleRFP
      ∧ (addRequirement [sampleRFP] "2" sampleReq).length = [sampleRFP].length
      ∧ (addRequirement [sampleRFP] "2" sampleReq)[0]? = some sampleRFP) :=
  ⟨⟨rfl, by decide⟩,
   rfp_store_frame [sampleRFP] "2" emptyUpdates sampleLI sampleReq 0 sampleRFP
     rfl (by decide)⟩

/-- C10 witness: looking up id "1" in a store holding `sampleRFP` finds
it first, with nothing before it. -/
theorem getRFPById_witness :
    getRFPById [sampleRFP] "1" = some sampleRFP
    ∧ (sampleRFP.id = "1"
      ∧ ∃ pre post, [sampleRFP] = pre ++ sampleRFP :: post ∧ ∀ x ∈ pre, x.id ≠ "1") :=
  ⟨rfl, (getRFPById_spec [sampleRFP] "1").1 sampleRFP rfl⟩

end RFPSystem
